import Mathlib

/-!
# Verification of the circom2gnark codec and pipeline

Shallow embedding of the Go sources of `vocdoni/circom2gnark`:

* `parser/util.go`      — `stringToBigInt`, `addZPadding`, `stringToBytes`
* `parser/parser.go`    — `stringToG1`, `stringToG2`, `ParsePublicInputs`,
                          `ConvertProof`, `ConvertVerificationKey`
* `circom2gnark.go`     — `ConvertGnarkToCircom`, `g1ToCircomString`,
                          `g2ToCircomString`, `elementToString`
* `parser/solidity.go`  — `Groth16CommitmentProof.FromGnarkProof`
* `example_native_aggregation/compile.go` — `LoadCircuit`
* `example_native_aggregation/` aggregation stage — compile-or-load decision

Go machine behaviour is made explicit: fallible calls return a `GoResult`,
runtime panics (out-of-range indexing and slicing) are a distinguished
`GoResult.panic` outcome, and in-place slice mutation is modelled by
returning the final state of the caller's slice alongside the result.
-/

set_option maxRecDepth 10000

namespace Circom2Gnark

/-- Outcome of running a Go function: a value, a returned `error`, or a
runtime panic. -/
inductive GoResult (α : Type) where
  | ok : α → GoResult α
  | err : String → GoResult α
  | panic : String → GoResult α
deriving Repr, DecidableEq

namespace GoResult

def bind {α β : Type} : GoResult α → (α → GoResult β) → GoResult β
  | ok a, f => f a
  | err e, _ => err e
  | panic e, _ => panic e

instance : Monad GoResult where
  pure := ok
  bind := bind

/-- The run produced a value (no error, no panic). -/
def isOk {α : Type} : GoResult α → Bool
  | ok _ => true
  | _ => false

/-- The run ended in a runtime panic. -/
def isPanic {α : Type} : GoResult α → Bool
  | panic _ => true
  | _ => false

/-- The run returned a Go `error` value. -/
def isErr {α : Type} : GoResult α → Bool
  | err _ => true
  | _ => false

@[simp] theorem bind_ok {α β : Type} (a : α) (f : α → GoResult β) :
    bind (ok a) f = f a := rfl

@[simp] theorem bind_err {α β : Type} (e : String) (f : α → GoResult β) :
    bind (err e) f = (err e : GoResult β) := rfl

@[simp] theorem bind_panic {α β : Type} (e : String) (f : α → GoResult β) :
    bind (panic e) f = (panic e : GoResult β) := rfl

end GoResult

/-- BN254 base-field modulus `p` (the field of G1 coordinates and of the
components of G2 coordinates). -/
def pMod : Nat :=
  21888242871839275222246405745257275088696311157297823662689037894645226208583

/-- BN254 scalar-field modulus `r` (the field of public signals). -/
def rMod : Nat :=
  21888242871839275222246405745257275088548364400416034343698204186575808495617

/-! ## Decimal / hexadecimal string parsing (`math/big` `SetString`) -/

/-- Value of a decimal digit character, if it is one. -/
def decDigit? (c : Char) : Option Nat :=
  if '0' ≤ c ∧ c ≤ '9' then some (c.toNat - 48) else none

/-- Value of a hexadecimal digit character, if it is one. -/
def hexDigit? (c : Char) : Option Nat :=
  if '0' ≤ c ∧ c ≤ '9' then some (c.toNat - 48)
  else if 'a' ≤ c ∧ c ≤ 'f' then some (c.toNat - 87)
  else if 'A' ≤ c ∧ c ≤ 'F' then some (c.toNat - 55)
  else none

/-- Parse a non-empty all-digit character list in the given base using the
given per-digit parser. -/
def parseDigits (digit? : Char → Option Nat) (base : Nat) : List Char → Option Nat
  | [] => none
  | [c] => digit? c
  | c :: rest => do
      let d ← digit? c
      let r ← parseDigits digit? base rest
      pure (d * base ^ rest.length + r)

/-- `big.Int.SetString(s, base)` for a fixed base: an optional sign followed
by at least one digit of the base. -/
def setString (digit? : Char → Option Nat) (base : Nat) (s : String) : Option Int :=
  match s.data with
  | '+' :: rest => (parseDigits digit? base rest).map Int.ofNat
  | '-' :: rest => (parseDigits digit? base rest).map (fun n => -(n : Int))
  | l => (parseDigits digit? base l).map Int.ofNat

/-- `big.Int.SetString(s, 10)`. -/
def setStringDec (s : String) : Option Int := setString decDigit? 10 s

/-- `big.Int.SetString(s, 16)`. -/
def setStringHex (s : String) : Option Int := setString hexDigit? 16 s

/-- `stringToBigInt` from `parser/util.go`: a `"0x"`-prefixed string is
parsed as hexadecimal, anything else as decimal. -/
def stringToBigInt (s : String) : GoResult Int :=
  match s.data with
  | '0' :: 'x' :: rest =>
      match setStringHex (String.mk rest) with
      | some bi => .ok bi
      | none => .err ("failed to parse hex string " ++ s)
  | _ =>
      match setStringDec s with
      | some bi => .ok bi
      | none => .err ("failed to parse decimal string " ++ s)

/-! ## Big-endian byte representation (`big.Int.Bytes` / `SetBytes`) -/

/-- Minimal big-endian base-256 representation, bounded by a recursion fuel;
`64` levels of fuel are enough for every value below `2 ^ 512`, far above
anything a 32-byte field-width codec manipulates. `big.Int.Bytes` returns
the empty slice for zero. -/
def natToBytesFuel : Nat → Nat → List Nat
  | 0, _ => []
  | fuel + 1, n => if n = 0 then [] else natToBytesFuel fuel (n / 256) ++ [n % 256]

/-- `big.Int.Bytes()` on the absolute value: minimal big-endian bytes. -/
def natToBytes (n : Nat) : List Nat := natToBytesFuel 64 n

/-- Big-endian interpretation of a byte slice (`big.Int.SetBytes` /
the curve library's fixed-width reads). -/
def bytesToNat (l : List Nat) : Nat := l.foldl (fun acc b => acc * 256 + b) 0

/-- `addZPadding` from `parser/util.go`. The Go code slices a 32-byte zero
array as `z[len(b):]`; when `len(b) > 32` that slice expression is out of
bounds and the program panics at runtime. -/
def addZPadding (b : List Nat) : GoResult (List Nat) :=
  if b.length ≤ 32 then .ok (List.replicate (32 - b.length) 0 ++ b)
  else .panic "runtime error: slice bounds out of range"

/-- The sentinel substitution used by the decimal decoders: the literal
string `"1"` is replaced by `"0"` before conversion. -/
def sentinel (s : String) : String := if s = "1" then "0" else s

/-- `stringToBytes` from `parser/util.go`: sentinel substitution, decimal
parse, then zero-pad the big-endian bytes to 32 bytes when shorter
(and panic, via `addZPadding`, when longer). -/
def stringToBytes (s : String) : GoResult (List Nat) :=
  match setStringDec (sentinel s) with
  | none => .err "error parsing bigint stringToBytes"
  | some bi =>
      let b := natToBytes bi.natAbs
      if b.length ≠ 32 then addZPadding b else .ok b

/-! ## Hex decoding (`encoding/hex.DecodeString`) -/

/-- `hex.DecodeString`: pairs of hex digits; fails on an odd-length input or
a non-hex character. -/
def hexDecode : List Char → Option (List Nat)
  | [] => some []
  | [_] => none
  | c1 :: c2 :: rest => do
      let h ← hexDigit? c1
      let l ← hexDigit? c2
      let r ← hexDecode rest
      pure ((h * 16 + l) :: r)

/-- `strings.TrimPrefix(s, "0x")`. -/
def trim0x (s : String) : String :=
  match s.data with
  | '0' :: 'x' :: rest => String.mk rest
  | _ => s

/-- The hex-branch test of the decoders: the first string has length `> 1`
and starts with the two bytes `0x`. -/
def isHexPrefixed (s : String) : Bool :=
  match s.data with
  | '0' :: 'x' :: _ => true
  | _ => false

/-! ## BN254 points and the curve library's decode contract

The curve arithmetic itself lives in the external `gnark-crypto` library;
the spec (§1, §3, §6) treats it as a collaborator reached through a narrow
contract: `Unmarshal` reads fixed-width big-endian coordinates and
"must never silently accept an off-curve point — validation is delegated
to the underlying curve library's decode routine".
-/

/-- An affine BN254 G1 point; `(0, 0)` is the library's affine encoding of
the point at infinity. -/
structure G1Affine where
  x : Nat
  y : Nat
deriving Repr, DecidableEq

/-- An element `a0 + a1·u` of `F_{p²}` with `u² = -1`. -/
structure Fp2 where
  a0 : Nat
  a1 : Nat
deriving Repr, DecidableEq

/-- An affine BN254 G2 point (on the twist over `F_{p²}`); the zero point
encodes infinity. -/
structure G2Affine where
  x : Fp2
  y : Fp2
deriving Repr, DecidableEq

def fp2Add (a b : Fp2) : Fp2 :=
  ⟨(a.a0 + b.a0) % pMod, (a.a1 + b.a1) % pMod⟩

/-- Multiplication in `F_{p²}`: `u² = -1 ≡ p - 1`. -/
def fp2Mul (a b : Fp2) : Fp2 :=
  ⟨(a.a0 * b.a0 + a.a1 * b.a1 * (pMod - 1)) % pMod,
   (a.a0 * b.a1 + a.a1 * b.a0) % pMod⟩

/-- The G1 curve equation `y² = x³ + 3` over `F_p`. -/
def isOnCurveG1 (x y : Nat) : Bool :=
  (y * y) % pMod = (x * x * x + 3) % pMod

/-- The twist coefficient `b' = 3 / (9 + u)` of the BN254 G2 curve. -/
def bTwist : Fp2 :=
  ⟨19485874751759354771024239261021720505790618469301721065564631296452457478373,
   266929791119991161246907387137283842545076965332900288569378510910307636690⟩

/-- The G2 twist equation `y² = x³ + b'` over `F_{p²}` (on reduced
coordinates). -/
def isOnCurveG2 (x y : Fp2) : Bool :=
  fp2Mul y y = fp2Add (fp2Mul (fp2Mul x x) x) bTwist

/-- Modelled from the spec (§3 and the §6 collaborator contract): the curve
library's `G1Affine.Unmarshal` on an uncompressed buffer. It needs 64
big-endian bytes `X ‖ Y`, rejects a buffer whose leading metadata bits mark
a compressed encoding (which never arises from the 32-byte zero-padded
reduced coordinates this codec produces, since `p < 2^254`), accepts the
all-zero buffer as the point at infinity, and otherwise demands canonical
(`< p`) coordinates of a point on the curve. -/
def g1Unmarshal (b : List Nat) : GoResult G1Affine :=
  if b.length < 64 then .err "io: unexpected EOF"
  else
    let bb := b.take 64
    if 64 ≤ bb.headD 0 then .err "compressed encoding: outside the modelled contract"
    else
      let x := bytesToNat (bb.take 32)
      let y := bytesToNat (bb.drop 32)
      if x = 0 ∧ y = 0 then .ok ⟨0, 0⟩
      else if x < pMod ∧ y < pMod ∧ isOnCurveG1 x y then .ok ⟨x, y⟩
      else .err "invalid point: not canonical or not on curve"

/-- Modelled from the spec (§3 and the §6 collaborator contract): the curve
library's `G2Affine.Unmarshal` on an uncompressed buffer of 128 big-endian
bytes `X.A1 ‖ X.A0 ‖ Y.A1 ‖ Y.A0`. Validation (canonical coordinates,
point on the twist; the library additionally checks subgroup membership,
which refines the success condition but not the decoded coordinates) is
delegated to the library per the spec. -/
def g2Unmarshal (b : List Nat) : GoResult G2Affine :=
  if b.length < 128 then .err "io: unexpected EOF"
  else
    let bb := b.take 128
    if 64 ≤ bb.headD 0 then .err "compressed encoding: outside the modelled contract"
    else
      let xa1 := bytesToNat (bb.take 32)
      let xa0 := bytesToNat ((bb.drop 32).take 32)
      let ya1 := bytesToNat ((bb.drop 64).take 32)
      let ya0 := bytesToNat ((bb.drop 96).take 32)
      if xa0 = 0 ∧ xa1 = 0 ∧ ya0 = 0 ∧ ya1 = 0 then .ok ⟨⟨0, 0⟩, ⟨0, 0⟩⟩
      else if xa0 < pMod ∧ xa1 < pMod ∧ ya0 < pMod ∧ ya1 < pMod ∧
          isOnCurveG2 ⟨xa0, xa1⟩ ⟨ya0, ya1⟩ then
        .ok ⟨⟨xa0, xa1⟩, ⟨ya0, ya1⟩⟩
      else .err "invalid point: not canonical or not on curve"

/-! ## The string decoders of `parser/parser.go` -/

/-- Go slice indexing: out-of-range access is a runtime panic. -/
def idx {α : Type} (l : List α) (i : Nat) : GoResult α :=
  match l.get? i with
  | some a => .ok a
  | none => .panic "runtime error: index out of range"

/-- `stringToG1` from `parser/parser.go`. The pair returned is the Go
result together with the final contents of the caller's slice: in the
decimal branch the function overwrites `h[0]` and `h[1]` in place before
parsing (Go slices share their backing array), and the caller observes
those writes whether or not decoding then succeeds. -/
def stringToG1 (h : List String) : GoResult G1Affine × List String :=
  if h.length ≤ 2 then (.err "not enough data for stringToG1", h)
  else
    let h0 := h.headD ""
    let h1 := h.getD 1 ""
    if isHexPrefixed h0 then
      match hexDecode (trim0x h0 ++ trim0x h1).data with
      | none => (.err "encoding/hex: invalid input", h)
      | some b => (g1Unmarshal b, h)
    else
      let h' := (h.set 0 (sentinel h0)).set 1 (sentinel h1)
      match setStringDec (sentinel h0) with
      | none => (.err "error parsing stringToG1", h')
      | some bi0 =>
          match setStringDec (sentinel h1) with
          | none => (.err "error parsing stringToG1", h')
          | some bi1 =>
              let b0 := natToBytes bi0.natAbs
              let b1 := natToBytes bi1.natAbs
              let padded : GoResult (List Nat) :=
                (if b0.length ≠ 32 then addZPadding b0 else .ok b0).bind fun p0 =>
                  (if b1.length ≠ 32 then addZPadding b1 else .ok b1).bind fun p1 =>
                    .ok (p0 ++ p1)
              match padded with
              | .ok b => (g1Unmarshal b, h')
              | .err e => (.err e, h')
              | .panic e => (.panic e, h')

/-- The result component of `stringToG1` (callers that only use the decoded
point). -/
def stringToG1Res (h : List String) : GoResult G1Affine := (stringToG1 h).1

/-- The byte assembly of the decimal branch of `stringToG2`: the four
sub-coordinate strings are decoded through `stringToBytes` and concatenated
in the order `h[0][1], h[0][0], h[1][1], h[1][0]`; each index access can
panic when an inner array is too short. -/
def g2DecimalBytes (row0 row1 : List String) : GoResult (List Nat) :=
  (idx row0 1).bind fun s01 =>
    (stringToBytes s01).bind fun b1 =>
      (idx row0 0).bind fun s00 =>
        (stringToBytes s00).bind fun b2 =>
          (idx row1 1).bind fun s11 =>
            (stringToBytes s11).bind fun b3 =>
              (idx row1 0).bind fun s10 =>
                (stringToBytes s10).bind fun b4 =>
                  .ok (b1 ++ b2 ++ b3 ++ b4)

/-- `stringToG2` from `parser/parser.go`. The hex test reads `h[0][0]`
unconditionally after the outer length check, so an empty first inner array
panics. Strings are immutable in Go, so unlike `stringToG1` this decoder
never mutates the caller's data (`stringToBytes` rebinds a local copy). -/
def stringToG2 (h : List (List String)) : GoResult G2Affine :=
  if h.length ≤ 2 then .err "not enough data for stringToG2"
  else
    let row0 := h.headD []
    let row1 := h.getD 1 []
    (idx row0 0).bind fun h00 =>
      if isHexPrefixed h00 then
        match hexDecode (String.join ((row0 ++ row1).map trim0x)).data with
        | none => .err "encoding/hex: invalid input"
        | some b => g2Unmarshal b
      else
        (g2DecimalBytes row0 row1).bind g2Unmarshal

/-! ## Public signals (`ParsePublicInputs`) -/

/-- `fr.Element.SetBigInt`: reduction modulo the scalar field `r`
(Euclidean, so a non-negative representative also for negative inputs). -/
def frSetBigInt (bi : Int) : Nat := (bi % (rMod : Int)).toNat

def parsePublicInputsAux : Nat → List String → GoResult (List Nat)
  | _, [] => .ok []
  | i, s :: rest =>
      match stringToBigInt s with
      | .ok bi => (parsePublicInputsAux (i + 1) rest).bind fun l =>
          .ok (frSetBigInt bi :: l)
      | .err e => .err ("failed to parse public input " ++ toString i ++ ": " ++ e)
      | .panic e => .panic e

/-- `ParsePublicInputs` from `parser/parser.go`: each signal string is
parsed by `stringToBigInt` and reduced into the scalar field. -/
def ParsePublicInputs (publicSignals : List String) : GoResult (List Nat) :=
  parsePublicInputsAux 0 publicSignals

/-- `ConvertPublicInputs`: the signal parser used by the conversion
pipeline; it performs the same per-signal `stringToBigInt` +
field-reduction as `ParsePublicInputs`. -/
def ConvertPublicInputs (publicSignals : List String) : GoResult (List Nat) :=
  ParsePublicInputs publicSignals

/-! ## External and internal records -/

/-- The external JSON proof object (`SnarkJSProof` / `CircomProof` in
`parser/types.go`): `pi_a`, `pi_b`, `pi_c` as decimal string arrays plus the
protocol tag. -/
structure CircomProof where
  piA : List String
  piB : List (List String)
  piC : List String
  protocol : String
deriving Repr, DecidableEq

/-- The external JSON verification key (`SnarkJSVerificationKey` /
`CircomVerificationKey` in `parser/types.go`). -/
structure CircomVerificationKey where
  protocol : String
  curve : String
  nPublic : Nat
  vkAlpha1 : List String
  vkBeta2 : List (List String)
  vkGamma2 : List (List String)
  vkDelta2 : List (List String)
  ic : List (List String)
  vkAlphabeta12 : List (List (List String))
deriving Repr, DecidableEq

/-- The internal groth16 bn254 proof record: `Ar`, `Krs` (G1), `Bs` (G2),
plus the commitment points and their proof of knowledge (empty/zero when the
proof has no commitments). -/
structure Groth16Proof where
  ar : G1Affine
  krs : G1Affine
  bs : G2Affine
  commitments : List G1Affine
  commitmentPok : G1Affine
deriving Repr, DecidableEq

/-- The internal groth16 bn254 verifying key: the fields set by
`ConvertVerificationKey` (`G1.Alpha`, `G1.K`, `G2.Beta`, `G2.Gamma`,
`G2.Delta`; the precomputed pairing lines are the library's internals). -/
structure Groth16VerifyingKey where
  g1Alpha : G1Affine
  g1K : List G1Affine
  g2Beta : G2Affine
  g2Gamma : G2Affine
  g2Delta : G2Affine
deriving Repr, DecidableEq

/-! ## Whole-object conversion, external → internal -/

/-- `ConvertProof` from `parser/parser.go`: decodes `PiA`, `PiC`, then
`PiB`; the constructed proof assumes no commitments (source comment). -/
def ConvertProof (snarkProof : CircomProof) : GoResult Groth16Proof :=
  match stringToG1Res snarkProof.piA with
  | .err e => .err ("failed to convert PiA: " ++ e)
  | .panic e => .panic e
  | .ok arG1 =>
      match stringToG1Res snarkProof.piC with
      | .err e => .err ("failed to convert PiC: " ++ e)
      | .panic e => .panic e
      | .ok krsG1 =>
          match stringToG2 snarkProof.piB with
          | .err e => .err ("failed to convert PiB: " ++ e)
          | .panic e => .panic e
          | .ok bsG2 =>
              .ok ⟨arG1, krsG1, bsG2, [], ⟨0, 0⟩⟩

def convertICAux : Nat → List (List String) → GoResult (List G1Affine)
  | _, [] => .ok []
  | i, pt :: rest =>
      match stringToG1Res pt with
      | .err e => .err ("failed to convert IC[" ++ toString i ++ "]: " ++ e)
      | .panic e => .panic e
      | .ok g => (convertICAux (i + 1) rest).bind fun l => .ok (g :: l)

/-- `ConvertVerificationKey` from `parser/parser.go`: decodes `alpha`,
`beta`, `gamma`, `delta` and every `IC` entry. The closing
`vk.Precompute()` call fills library-internal pairing caches and is not part
of the modelled record. -/
def ConvertVerificationKey (snarkVk : CircomVerificationKey) :
    GoResult Groth16VerifyingKey :=
  match stringToG1Res snarkVk.vkAlpha1 with
  | .err e => .err ("failed to convert VkAlpha1: " ++ e)
  | .panic e => .panic e
  | .ok alphaG1 =>
      match stringToG2 snarkVk.vkBeta2 with
      | .err e => .err ("failed to convert VkBeta2: " ++ e)
      | .panic e => .panic e
      | .ok betaG2 =>
          match stringToG2 snarkVk.vkGamma2 with
          | .err e => .err ("failed to convert VkGamma2: " ++ e)
          | .panic e => .panic e
          | .ok gammaG2 =>
              match stringToG2 snarkVk.vkDelta2 with
              | .err e => .err ("failed to convert VkDelta2: " ++ e)
              | .panic e => .panic e
              | .ok deltaG2 =>
                  (convertICAux 0 snarkVk.ic).bind fun g1K =>
                    .ok ⟨alphaG1, g1K, betaG2, gammaG2, deltaG2⟩

/-- The bundled internal triple returned by the external → internal
pipeline. -/
structure GnarkProof where
  proof : Groth16Proof
  verifyingKey : Groth16VerifyingKey
  publicInputs : List Nat
deriving Repr, DecidableEq

/-- Modelled from the spec: `ConvertCircomToGnark` is not among the
provided sources (only its tests and callers are). Per §4.2 and every call
site it is the KeyProofCodec composition of `ConvertProof`,
`ConvertVerificationKey` and the public-signal parser, bundling the three
internal objects into a `GnarkProof`. -/
def ConvertCircomToGnark (vk : CircomVerificationKey) (proof : CircomProof)
    (signals : List String) : GoResult GnarkProof :=
  (ConvertProof proof).bind fun gproof =>
    (ConvertVerificationKey vk).bind fun gvk =>
      (ConvertPublicInputs signals).bind fun inputs =>
        .ok ⟨gproof, gvk, inputs⟩

/-! ## Whole-object conversion, internal → external (`ConvertGnarkToCircom`) -/

/-- `g1ToCircomString`: a G1 point as `[X, Y, "1"]`, decimal. -/
def g1ToCircomString (p : G1Affine) : List String :=
  [Nat.repr p.x, Nat.repr p.y, "1"]

/-- `g2ToCircomString`: a G2 point as
`[[X.A0, X.A1], [Y.A0, Y.A1], ["1", "0"]]`, decimal. -/
def g2ToCircomString (p : G2Affine) : List (List String) :=
  [[Nat.repr p.x.a0, Nat.repr p.x.a1],
   [Nat.repr p.y.a0, Nat.repr p.y.a1],
   ["1", "0"]]

/-- `elementToString`: a scalar-field element as its decimal string. -/
def elementToString (e : Nat) : String := Nat.repr e

/-- A target-group element decomposed into its 2×3×2 tower components
(`gt.Ci.Bj.Ak`), as the external pairing collaborator reports it. -/
structure GTEl where
  c : Fin 2 → Fin 3 → Fin 2 → Nat

/-- `ComputeAlphabeta12`: the pairing `e(alpha, beta)` is the external
collaborator's `pair` primitive (spec §6); the function decomposes the
result into the fixed 2×3×2 nested decimal-string structure. -/
def ComputeAlphabeta12 (pair : G1Affine → G2Affine → GTEl)
    (alpha : G1Affine) (beta : G2Affine) : List (List (List String)) :=
  let gt := pair alpha beta
  [[[Nat.repr (gt.c 0 0 0), Nat.repr (gt.c 0 0 1)],
    [Nat.repr (gt.c 0 1 0), Nat.repr (gt.c 0 1 1)],
    [Nat.repr (gt.c 0 2 0), Nat.repr (gt.c 0 2 1)]],
   [[Nat.repr (gt.c 1 0 0), Nat.repr (gt.c 1 0 1)],
    [Nat.repr (gt.c 1 1 0), Nat.repr (gt.c 1 1 1)],
    [Nat.repr (gt.c 1 2 0), Nat.repr (gt.c 1 2 1)]]]

/-- `ConvertGnarkToCircom`: converts the proof's three group elements, the
verifying key (with the zero-public-input truncation of `IC` and the
recomputed `vk_alphabeta_12`) and the public witness to the external
decimal-string format. The public witness is its underlying `fr.Vector`;
the source's remaining failure cases are dynamic-type and nil-pointer
checks with no counterpart in this typed model. -/
def ConvertGnarkToCircom (pair : G1Affine → G2Affine → GTEl)
    (proof : Groth16Proof) (vk : Groth16VerifyingKey)
    (publicWitness : List Nat) :
    CircomProof × CircomVerificationKey × List String :=
  let piA := g1ToCircomString proof.ar
  let piC := g1ToCircomString proof.krs
  let piB := g2ToCircomString proof.bs
  let circomProof : CircomProof := ⟨piA, piB, piC, "groth16"⟩
  let ic0 := vk.g1K.map g1ToCircomString
  let nPublic := publicWitness.length
  let ic := if nPublic = 0 ∧ ic0.length > 1 then ic0.take 1 else ic0
  let alphabeta := ComputeAlphabeta12 pair vk.g1Alpha vk.g2Beta
  let circomVk : CircomVerificationKey :=
    ⟨"groth16", "bn128", nPublic, g1ToCircomString vk.g1Alpha,
     g2ToCircomString vk.g2Beta, g2ToCircomString vk.g2Gamma,
     g2ToCircomString vk.g2Delta, ic, alphabeta⟩
  let publicSignals := publicWitness.map elementToString
  (circomProof, circomVk, publicSignals)

/-! ## Solidity export (`parser/solidity.go`) -/

/-- `SolidityProof`: the Groth16 proof tuple for Solidity, coordinates as
integers (`Bs` rows are high-degree-term first). -/
structure SolidityProof where
  ar : Nat × Nat
  bs : (Nat × Nat) × (Nat × Nat)
  krs : Nat × Nat
deriving Repr, DecidableEq

/-- `Groth16CommitmentProof`: proof plus the first commitment point and the
commitment proof of knowledge. -/
structure Groth16CommitmentProof where
  proof : SolidityProof
  commitments : Nat × Nat
  commitmentPok : Nat × Nat
deriving Repr, DecidableEq

/-- `Groth16CommitmentProof.FromGnarkProof` from `parser/solidity.go`:
builds the Solidity tuple from `Ar`, `Bs`, `Krs`, then reads
`Commitments[0]` unconditionally — a proof carrying no commitment points
makes that index access panic at runtime. -/
def fromGnarkProof (proof : Groth16Proof) : GoResult Groth16CommitmentProof :=
  let solProof : SolidityProof :=
    ⟨(proof.ar.x, proof.ar.y),
     ((proof.bs.x.a1, proof.bs.x.a0), (proof.bs.y.a1, proof.bs.y.a0)),
     (proof.krs.x, proof.krs.y)⟩
  match proof.commitments.head? with
  | none => .panic "runtime error: index out of range"
  | some c0 =>
      .ok ⟨solProof, (c0.x, c0.y), (proof.commitmentPok.x, proof.commitmentPok.y)⟩

/-! ## Artifact cache (`example_native_aggregation/compile.go`) -/

/-- Observable state of one artifact file: absent (`os.Stat`/`os.Open`
fail), present but failing to open, present but with corrupt content
(`ReadFrom` fails), or fully readable. -/
inductive FileState where
  | absent
  | openFail
  | readFail
  | good
deriving Repr, DecidableEq

/-- The two circuit kinds of the aggregation example. -/
inductive CircuitType where
  | verifyCircomProof
  | aggregateProof
deriving Repr, DecidableEq

def fileSuffix : CircuitType → String
  | .verifyCircomProof => "verify"
  | .aggregateProof => "aggregate"

/-- Load failures: the distinguished recoverable `ErrCircuitDoesNotExist`
versus every other (wrapped, fatal) error. -/
inductive LoadError where
  | circuitDoesNotExist
  | other : String → LoadError
deriving Repr, DecidableEq

/-- `os.Open` followed by `ReadFrom` on one artifact file, each failure
wrapped into its own message. -/
def readArtifact (st : FileState) (openMsg readMsg : String) :
    Except LoadError Unit :=
  match st with
  | .absent => .error (.other openMsg)
  | .openFail => .error (.other openMsg)
  | .readFail => .error (.other readMsg)
  | .good => .ok ()

/-- `LoadCircuit` from `example_native_aggregation/compile.go`, over an
abstract filesystem assigning a state to each file name. A failing
`os.Stat` on the constraint-system file yields the distinguished
`ErrCircuitDoesNotExist`; each later failure (constraint system, proving
key, verifying key: open or read) is wrapped into an ordinary error. -/
def LoadCircuit (fs : String → FileState) (t : CircuitType) :
    Except LoadError Unit :=
  let suffix := fileSuffix t
  if fs ("circuit_" ++ suffix ++ ".r1cs") = .absent then
    .error .circuitDoesNotExist
  else
    match readArtifact (fs ("circuit_" ++ suffix ++ ".r1cs"))
        "error opening circuit.r1cs" "error reading circuit from circuit.r1cs" with
    | .error e => .error e
    | .ok _ =>
        match readArtifact (fs ("pk_" ++ suffix ++ ".bin"))
            "error opening pk.bin" "error reading proving key from pk.bin" with
        | .error e => .error e
        | .ok _ =>
            readArtifact (fs ("vk_" ++ suffix ++ ".bin"))
              "error opening vk.bin" "error reading verifying key from vk.bin"

/-- Outcome of the compile-or-load step of a pipeline stage. -/
inductive StageAction where
  | useLoaded
  | recompile
  | abort : String → StageAction
deriving Repr, DecidableEq

/-- The compile-or-load decision of `AggregateProofs`
(`example_native_aggregation`): use the cached artifacts on success,
recompile exactly on `ErrCircuitDoesNotExist` (`errors.Is`), and abort the
stage on any other load failure. -/
def aggregateCompileOrLoad (fs : String → FileState) : StageAction :=
  match LoadCircuit fs .aggregateProof with
  | .ok _ => .useLoaded
  | .error .circuitDoesNotExist => .recompile
  | .error (.other e) => .abort ("failed to load circuit: " ++ e)

/-! ## Spec-side definitions

Definitions in this section follow the words of the spec, for comparison
with the definitions above that embed the source.
-/

/-- The decimal branch of the G2 decoder as the spec's words describe it:
"decoding four field elements in a fixed order: (Y.A1, Y.A0, X.A1, X.A0)",
where the external rows are `[X, Y]` with each row `[A0, A1]` (the
labelling of the repository's own encoder `g2ToCircomString`). Everything
else follows `stringToG2`. -/
def stringToG2SpecOrder (h : List (List String)) : GoResult G2Affine :=
  if h.length ≤ 2 then .err "not enough data for stringToG2"
  else
    let row0 := h.headD []
    let row1 := h.getD 1 []
    (idx row0 0).bind fun h00 =>
      if isHexPrefixed h00 then
        match hexDecode (String.join ((row0 ++ row1).map trim0x)).data with
        | none => .err "encoding/hex: invalid input"
        | some b => g2Unmarshal b
      else
        (g2DecimalBytes row1 row0).bind g2Unmarshal

/-- Canonical decimal reading of a string: it parses in base 10 as a
non-negative value whose shortest decimal representation is the string
itself. -/
def canonNat? (s : String) : Option Nat :=
  match setStringDec s with
  | some (Int.ofNat v) => if Nat.repr v = s then some v else none
  | _ => none

/-- Spec-side validity of an external G1 point encoding (§3, §6): the
canonical decimal `[X, Y, "1"]` of reduced coordinates of a point of the
curve, or the affine-zero encoding of infinity. -/
def validG1Enc (l : List String) : Bool :=
  match l with
  | [sx, sy, s1] =>
      match canonNat? sx, canonNat? sy with
      | some x, some y =>
          s1 == "1" && decide (x < pMod) && decide (y < pMod) &&
            ((x == 0 && y == 0) || isOnCurveG1 x y)
      | _, _ => false
  | _ => false

/-- Spec-side validity of an external G2 point encoding (§3, §6): the
canonical decimal `[[X.A0, X.A1], [Y.A0, Y.A1], ["1", "0"]]` of reduced
coordinates of a point of the twist, or the zero encoding of infinity. -/
def validG2Enc (l : List (List String)) : Bool :=
  match l with
  | [[sx0, sx1], [sy0, sy1], [s1, s0]] =>
      match canonNat? sx0, canonNat? sx1, canonNat? sy0, canonNat? sy1 with
      | some x0, some x1, some y0, some y1 =>
          s1 == "1" && s0 == "0" &&
            decide (x0 < pMod) && decide (x1 < pMod) &&
            decide (y0 < pMod) && decide (y1 < pMod) &&
            ((x0 == 0 && x1 == 0 && y0 == 0 && y1 == 0) ||
              isOnCurveG2 ⟨x0, x1⟩ ⟨y0, y1⟩)
      | _, _, _, _ => false
  | _ => false

/-- Spec-side validity of one public signal: canonical decimal of a reduced
scalar. -/
def validSignal (s : String) : Bool :=
  match canonNat? s with
  | some v => decide (v < rMod)
  | none => false

/-- Spec-side validity of a whole external triple (§3, §6): valid point
encodings everywhere, matching protocol/curve tags, and the
`len(IC) = nPublic + 1 = number of signals + 1` invariant. -/
def validCircomTriple (vk : CircomVerificationKey) (proof : CircomProof)
    (signals : List String) : Bool :=
  validG1Enc proof.piA && validG2Enc proof.piB && validG1Enc proof.piC &&
  proof.protocol == "groth16" &&
  vk.protocol == "groth16" && vk.curve == "bn128" &&
  validG1Enc vk.vkAlpha1 && validG2Enc vk.vkBeta2 &&
  validG2Enc vk.vkGamma2 && validG2Enc vk.vkDelta2 &&
  vk.ic.all validG1Enc &&
  vk.nPublic == signals.length && vk.ic.length == signals.length + 1 &&
  signals.all validSignal

/-- No affine coordinate string of a G1 encoding equals the sentinel
`"1"`. -/
def g1NoSentinel (l : List String) : Bool :=
  l.getD 0 "" != "1" && l.getD 1 "" != "1"

/-- No sub-coordinate string of a G2 encoding's two coordinate rows equals
the sentinel `"1"`. -/
def g2NoSentinel (l : List (List String)) : Bool :=
  (l.getD 0 []).getD 0 "" != "1" && (l.getD 0 []).getD 1 "" != "1" &&
  (l.getD 1 []).getD 0 "" != "1" && (l.getD 1 []).getD 1 "" != "1"

/-- No decoded coordinate string anywhere in the triple equals the
sentinel `"1"`. -/
def tripleNoSentinel (vk : CircomVerificationKey) (proof : CircomProof) : Bool :=
  g1NoSentinel proof.piA && g2NoSentinel proof.piB && g1NoSentinel proof.piC &&
  g1NoSentinel vk.vkAlpha1 && g2NoSentinel vk.vkBeta2 &&
  g2NoSentinel vk.vkGamma2 && g2NoSentinel vk.vkDelta2 &&
  vk.ic.all g1NoSentinel

/-- The G1 point a valid encoding denotes. -/
def g1EncVal (l : List String) : G1Affine :=
  ⟨(canonNat? (l.getD 0 "")).getD 0, (canonNat? (l.getD 1 "")).getD 0⟩

/-- The G2 point a valid encoding denotes. -/
def g2EncVal (l : List (List String)) : G2Affine :=
  ⟨⟨(canonNat? ((l.getD 0 []).getD 0 "")).getD 0,
    (canonNat? ((l.getD 0 []).getD 1 "")).getD 0⟩,
   ⟨(canonNat? ((l.getD 1 []).getD 0 "")).getD 0,
    (canonNat? ((l.getD 1 []).getD 1 "")).getD 0⟩⟩

/-- The scalar a valid signal string denotes. -/
def sigVal (s : String) : Nat := (canonNat? s).getD 0

/-! ## Derived forms and concrete sample data -/

/-- The 32-byte left-zero-padded big-endian encoding of a coordinate value
(what the decimal decoders assemble for each coordinate below the
256-bit width). -/
def pad32Bytes (v : Nat) : List Nat :=
  List.replicate (32 - (natToBytes v).length) 0 ++ natToBytes v

/-- A stand-in for the external pairing collaborator, used to instantiate
parametric statements on concrete data. -/
def dummyPair : G1Affine → G2Affine → GTEl := fun _ _ => ⟨fun _ _ _ => 0⟩

/-- `2·G` on BN254 G1 (a concrete curve point with no coordinate equal to
`0` or `1`). -/
def g1TwoG : G1Affine :=
  ⟨1368015179489954701390400359078579693043519447331113978918064868415326638035,
   9918110051302171585080402603319702774565515993150576347155970296011118125764⟩

/-- The canonical generator of BN254 G2 (a concrete point of the twist). -/
def g2Gen : G2Affine :=
  ⟨⟨10857046999023057135944570762232829481370756359578518086990519993285655852781,
    11559732032986387107991004021392285783925812861821192530917403151452391805634⟩,
   ⟨8495653923123431417604973247489272438418190587263600148770280649306958101930,
    4082367875863433681332203403145435568316851327593401208105741076214120093531⟩⟩

/-- The external decimal encoding of `g2Gen`. -/
def g2GenEnc : List (List String) := g2ToCircomString g2Gen

/-- The external decimal encoding of `g1TwoG`. -/
def g1TwoGEnc : List String := g1ToCircomString g1TwoG

/-- A concrete internal proof record with no commitment points. -/
def sampleProofNoCommit : Groth16Proof :=
  ⟨g1TwoG, ⟨1, 2⟩, g2Gen, [], ⟨0, 0⟩⟩

/-- A concrete internal proof record carrying one commitment point. -/
def sampleProofWithCommit : Groth16Proof :=
  ⟨g1TwoG, ⟨1, 2⟩, g2Gen, [⟨1, 2⟩], g1TwoG⟩

/-- A concrete external triple that is valid and sentinel-free everywhere:
both G1 slots hold `2·G`, all G2 slots hold the G2 generator, one public
signal. Its `vk_alphabeta_12` field is the decomposition `dummyPair`
assigns to the pairing of the converted `alpha` and `beta`. -/
def sampleVk : CircomVerificationKey :=
  ⟨"groth16", "bn128", 1, g1TwoGEnc, g2GenEnc, g2GenEnc, g2GenEnc,
   [g1TwoGEnc, g1TwoGEnc],
   ComputeAlphabeta12 dummyPair (g1EncVal g1TwoGEnc) (g2EncVal g2GenEnc)⟩

def sampleProofEnc : CircomProof :=
  ⟨g1TwoGEnc, g2GenEnc, g1TwoGEnc, "groth16"⟩

def sampleSignals : List String := ["7"]

/-- The generator `G = (1, 2)` of BN254 G1 encodes externally as
`["1", "2", "1"]`; this is the triple that defeats the sentinel
substitution: same as `sampleVk`/`sampleSignals` but with `pi_a` the
generator's encoding. -/
def genProofEnc : CircomProof :=
  ⟨["1", "2", "1"], g2GenEnc, g1TwoGEnc, "groth16"⟩

/-- A concrete internal verifying key with a two-entry `G1.K`. -/
def sampleGnarkVk : Groth16VerifyingKey :=
  ⟨g1TwoG, [g1TwoG, g1TwoG], g2Gen, g2Gen, g2Gen⟩

/-- A filesystem in which only the aggregate constraint-system file is
missing. -/
def fsNoAggregateCs : String → FileState := fun n =>
  if n = "circuit_aggregate.r1cs" then .absent else .good

/-- A filesystem in which the aggregate proving-key file is present but its
content fails to read. -/
def fsCorruptAggregatePk : String → FileState := fun n =>
  if n = "pk_aggregate.bin" then .readFail else .good

/-! ## Byte-level lemmas -/

theorem natToBytesFuel_length : ∀ (fuel n k : Nat), n < 256 ^ k →
    (natToBytesFuel fuel n).length ≤ k
  | 0, _, _, _ => by simp [natToBytesFuel]
  | fuel + 1, n, k, h => by
      by_cases hn : n = 0
      · simp [natToBytesFuel, hn]
      · cases k with
        | zero => exact absurd (Nat.lt_one_iff.mp (by simpa using h)) hn
        | succ k =>
            have hdiv : n / 256 < 256 ^ k := by
              refine (Nat.div_lt_iff_lt_mul (by norm_num)).mpr ?_
              calc n < 256 ^ (k + 1) := h
                _ = 256 ^ k * 256 := by rw [pow_succ]
            have ih := natToBytesFuel_length fuel (n / 256) k hdiv
            simp only [natToBytesFuel, hn, if_false, List.length_append,
              List.length_cons, List.length_nil]
            omega

theorem bytesToNat_foldl (l : List Nat) (acc : Nat) :
    l.foldl (fun a b => a * 256 + b) acc = acc * 256 ^ l.length + bytesToNat l := by
  induction l generalizing acc with
  | nil => simp [bytesToNat]
  | cons b l ih =>
      show List.foldl _ (acc * 256 + b) l = acc * 256 ^ (l.length + 1) + bytesToNat (b :: l)
      have h2 : bytesToNat (b :: l) = b * 256 ^ l.length + bytesToNat l := by
        show List.foldl _ (0 * 256 + b) l = _
        rw [Nat.zero_mul, Nat.zero_add, ih b]
      rw [ih (acc * 256 + b), h2, pow_succ]
      ring

theorem bytesToNat_cons (b : Nat) (l : List Nat) :
    bytesToNat (b :: l) = b * 256 ^ l.length + bytesToNat l := by
  show List.foldl _ (0 * 256 + b) l = _
  rw [Nat.zero_mul, Nat.zero_add, bytesToNat_foldl l b]

theorem bytesToNat_append (l1 l2 : List Nat) :
    bytesToNat (l1 ++ l2) = bytesToNat l1 * 256 ^ l2.length + bytesToNat l2 := by
  simp only [bytesToNat, List.foldl_append]
  exact bytesToNat_foldl l2 _

theorem natToBytesFuel_val : ∀ (fuel n : Nat), n < 256 ^ fuel →
    bytesToNat (natToBytesFuel fuel n) = n
  | 0, n, h => by
      simp only [pow_zero, Nat.lt_one_iff] at h
      simp [natToBytesFuel, bytesToNat, h]
  | fuel + 1, n, h => by
      by_cases hn : n = 0
      · simp [natToBytesFuel, hn, bytesToNat]
      · have hdiv : n / 256 < 256 ^ fuel := by
          refine (Nat.div_lt_iff_lt_mul (by norm_num)).mpr ?_
          calc n < 256 ^ (fuel + 1) := h
            _ = 256 ^ fuel * 256 := by rw [pow_succ]
        simp only [natToBytesFuel, hn, if_false]
        rw [bytesToNat_append, natToBytesFuel_val fuel (n / 256) hdiv]
        simp only [List.length_cons, List.length_nil, pow_one, bytesToNat,
          List.foldl_cons, List.foldl_nil, Nat.zero_mul, Nat.zero_add]
        omega

theorem natToBytesFuel_entries : ∀ (fuel n : Nat), ∀ b ∈ natToBytesFuel fuel n, b < 256
  | 0, _ => by simp [natToBytesFuel]
  | fuel + 1, n => by
      by_cases hn : n = 0
      · simp [natToBytesFuel, hn]
      · simp only [natToBytesFuel, hn, if_false]
        intro b hb
        rcases List.mem_append.mp hb with h | h
        · exact natToBytesFuel_entries fuel (n / 256) b h
        · simp only [List.mem_singleton] at h
          omega

theorem bytesToNat_lt (l : List Nat) (h : ∀ b ∈ l, b < 256) :
    bytesToNat l < 256 ^ l.length := by
  induction l with
  | nil => simp [bytesToNat]
  | cons b l ih =>
      rw [bytesToNat_cons]
      have hb : b < 256 := h b (by simp)
      have hl := ih (fun x hx => h x (by simp [hx]))
      calc b * 256 ^ l.length + bytesToNat l
          < b * 256 ^ l.length + 256 ^ l.length := by omega
        _ = (b + 1) * 256 ^ l.length := by ring
        _ ≤ 256 * 256 ^ l.length := Nat.mul_le_mul_right _ (by omega)
        _ = 256 ^ (b :: l).length := by rw [List.length_cons, pow_succ]; ring

theorem bytesToNat_head_div (b : Nat) (l : List Nat) (h : ∀ x ∈ l, x < 256) :
    bytesToNat (b :: l) / 256 ^ l.length = b := by
  rw [bytesToNat_cons]
  have hl := bytesToNat_lt l h
  rw [Nat.mul_comm b, Nat.mul_add_div (Nat.pos_pow_of_pos _ (by norm_num))]
  rw [Nat.div_eq_of_lt hl]
  omega

theorem natToBytes_length {n : Nat} (h : n < 2 ^ 256) : (natToBytes n).length ≤ 32 :=
  natToBytesFuel_length 64 n 32 (by
    calc n < 2 ^ 256 := h
      _ = 256 ^ 32 := by norm_num)

theorem natToBytes_val {n : Nat} (h : n < 2 ^ 256) : bytesToNat (natToBytes n) = n :=
  natToBytesFuel_val 64 n (by
    calc n < 2 ^ 256 := h
      _ ≤ 256 ^ 64 := by norm_num)

theorem pad32Bytes_length {v : Nat} (h : v < 2 ^ 256) : (pad32Bytes v).length = 32 := by
  have := natToBytes_length h
  simp only [pad32Bytes, List.length_append, List.length_replicate]
  omega

theorem bytesToNat_replicate_zero (k : Nat) : bytesToNat (List.replicate k 0) = 0 := by
  induction k with
  | zero => simp [bytesToNat]
  | succ k ih => rw [List.replicate_succ, bytesToNat_cons, ih]; ring

theorem pad32Bytes_val {v : Nat} (h : v < 2 ^ 256) : bytesToNat (pad32Bytes v) = v := by
  rw [pad32Bytes, bytesToNat_append, bytesToNat_replicate_zero, natToBytes_val h]
  ring

theorem pad32Bytes_entries (v : Nat) : ∀ b ∈ pad32Bytes v, b < 256 := by
  intro b hb
  rcases List.mem_append.mp hb with h | h
  · have := List.eq_of_mem_replicate h
    omega
  · exact natToBytesFuel_entries 64 v b h

theorem pad32Bytes_headD {v : Nat} (h : v < 2 ^ 254) : (pad32Bytes v).headD 0 < 64 := by
  have h256 : v < 2 ^ 256 := lt_trans h (by norm_num)
  have hlen := pad32Bytes_length h256
  rcases hp : pad32Bytes v with _ | ⟨b, rest⟩
  · rw [hp] at hlen; simp at hlen
  · have hrest : rest.length = 31 := by
      rw [hp] at hlen; simpa using hlen
    have hentry : ∀ x ∈ rest, x < 256 := by
      intro x hx
      exact pad32Bytes_entries v x (by rw [hp]; exact List.mem_cons_of_mem _ hx)
    have hdiv : bytesToNat (b :: rest) / 256 ^ rest.length = b :=
      bytesToNat_head_div b rest hentry
    have hval : bytesToNat (b :: rest) = v := by
      rw [← hp]; exact pad32Bytes_val h256
    rw [hval, hrest] at hdiv
    have hv : v / 256 ^ 31 < 64 := by
      refine (Nat.div_lt_iff_lt_mul (Nat.pos_pow_of_pos _ (by norm_num))).mpr ?_
      calc v < 2 ^ 254 := h
        _ = 64 * 256 ^ 31 := by norm_num
    simp only [List.headD_cons]
    exact hdiv ▸ hv

theorem padStep_eq {v : Nat} (h : v < 2 ^ 256) :
    (if (natToBytes v).length ≠ 32 then addZPadding (natToBytes v)
      else GoResult.ok (natToBytes v)) = .ok (pad32Bytes v) := by
  have hlen := natToBytes_length h
  by_cases h32 : (natToBytes v).length = 32
  · simp [h32, pad32Bytes, List.replicate]
  · simp [h32, addZPadding, hlen, pad32Bytes]

theorem stringToBytes_ok {s : String} {bi : Int}
    (hp : setStringDec (sentinel s) = some bi) (hlt : bi.natAbs < 2 ^ 256) :
    stringToBytes s = .ok (pad32Bytes bi.natAbs) := by
  unfold stringToBytes
  rw [hp]
  exact padStep_eq hlt

theorem headD_append_left {α : Type} (a b : List α) (d : α) (h : a ≠ []) :
    (a ++ b).headD d = a.headD d := by
  cases a with
  | nil => exact absurd rfl h
  | cons x xs => simp

/-! ## Unmarshal of zero-padded coordinate buffers -/

theorem g1Unmarshal_pad {x y : Nat} (hx : x < pMod) (hy : y < pMod)
    (hcurve : (x = 0 ∧ y = 0) ∨ isOnCurveG1 x y = true) :
    g1Unmarshal (pad32Bytes x ++ pad32Bytes y) = .ok ⟨x, y⟩ := by
  have hpm : pMod < 2 ^ 254 := by norm_num [pMod]
  have hx254 : x < 2 ^ 254 := lt_trans hx hpm
  have hy254 : y < 2 ^ 254 := lt_trans hy hpm
  have hx256 : x < 2 ^ 256 := lt_trans hx254 (by norm_num)
  have hy256 : y < 2 ^ 256 := lt_trans hy254 (by norm_num)
  have lx := pad32Bytes_length hx256
  have ly := pad32Bytes_length hy256
  have hlen : (pad32Bytes x ++ pad32Bytes y).length = 64 := by
    simp [lx, ly]
  have hnx : pad32Bytes x ≠ [] := by
    intro hc; rw [hc] at lx; simp at lx
  have htake : (pad32Bytes x ++ pad32Bytes y).take 64 = pad32Bytes x ++ pad32Bytes y :=
    List.take_of_length_le (by omega)
  have htake32 : (pad32Bytes x ++ pad32Bytes y).take 32 = pad32Bytes x := by
    rw [← lx]; exact List.take_left _ _
  have hdrop32 : (pad32Bytes x ++ pad32Bytes y).drop 32 = pad32Bytes y := by
    rw [← lx]; exact List.drop_left _ _
  have hflag : ¬ (64 ≤ (pad32Bytes x ++ pad32Bytes y).headD 0) := by
    rw [headD_append_left _ _ _ hnx]
    exact Nat.not_le.mpr (pad32Bytes_headD hx254)
  unfold g1Unmarshal
  rw [hlen]
  simp only [show ¬ (64 < 64) by omega, if_false, htake, hflag, htake32, hdrop32,
    pad32Bytes_val hx256, pad32Bytes_val hy256]
  by_cases hz : x = 0 ∧ y = 0
  · simp [hz.1, hz.2]
  · have hc : isOnCurveG1 x y = true := by
      rcases hcurve with h | h
      · exact absurd h hz
      · exact h
    simp [hz, hx, hy, hc]

theorem g2Unmarshal_pad {x0 x1 y0 y1 : Nat} (h0 : x0 < pMod) (h1 : x1 < pMod)
    (h2 : y0 < pMod) (h3 : y1 < pMod)
    (hcurve : (x0 = 0 ∧ x1 = 0 ∧ y0 = 0 ∧ y1 = 0) ∨
      isOnCurveG2 ⟨x0, x1⟩ ⟨y0, y1⟩ = true) :
    g2Unmarshal (pad32Bytes x1 ++ pad32Bytes x0 ++ pad32Bytes y1 ++ pad32Bytes y0) =
      .ok ⟨⟨x0, x1⟩, ⟨y0, y1⟩⟩ := by
  have hpm : pMod < 2 ^ 254 := by norm_num [pMod]
  have c0 : x0 < 2 ^ 256 := lt_trans (lt_trans h0 hpm) (by norm_num)
  have c1 : x1 < 2 ^ 256 := lt_trans (lt_trans h1 hpm) (by norm_num)
  have c2 : y0 < 2 ^ 256 := lt_trans (lt_trans h2 hpm) (by norm_num)
  have c3 : y1 < 2 ^ 256 := lt_trans (lt_trans h3 hpm) (by norm_num)
  have l0 := pad32Bytes_length c0
  have l1 := pad32Bytes_length c1
  have l2 := pad32Bytes_length c2
  have l3 := pad32Bytes_length c3
  set a := pad32Bytes x1 with ha
  set b := pad32Bytes x0 with hb
  set c := pad32Bytes y1 with hc
  set d := pad32Bytes y0 with hd
  have hlen : (a ++ b ++ c ++ d).length = 128 := by
    simp [l0, l1, l2, l3]
  have hna : a ≠ [] := by
    intro hcst; rw [hcst] at l1; simp at l1
  have htake : (a ++ b ++ c ++ d).take 128 = a ++ b ++ c ++ d :=
    List.take_of_length_le (by omega)
  have e1 : a ++ b ++ c ++ d = a ++ (b ++ (c ++ d)) := by
    simp [List.append_assoc]
  have e2 : a ++ b ++ c ++ d = (a ++ b) ++ (c ++ d) := by
    simp [List.append_assoc]
  have htake1 : (a ++ b ++ c ++ d).take 32 = a := by
    rw [e1, ← l1]; exact List.take_left _ _
  have hdrop32 : (a ++ b ++ c ++ d).drop 32 = b ++ (c ++ d) := by
    rw [e1, ← l1]; exact List.drop_left _ _
  have htake2 : ((a ++ b ++ c ++ d).drop 32).take 32 = b := by
    rw [hdrop32, ← l0]; exact List.take_left _ _
  have hdrop64 : (a ++ b ++ c ++ d).drop 64 = c ++ d := by
    rw [e2]
    have : (a ++ b).length = 64 := by simp [l0, l1]
    rw [← this]; exact List.drop_left _ _
  have htake3 : ((a ++ b ++ c ++ d).drop 64).take 32 = c := by
    rw [hdrop64, ← l3]; exact List.take_left _ _
  have hdrop96 : (a ++ b ++ c ++ d).drop 96 = d := by
    have : (a ++ b ++ c).length = 96 := by simp [l0, l1, l3]
    rw [← this]; exact List.drop_left _ _
  have htake4 : ((a ++ b ++ c ++ d).drop 96).take 32 = d := by
    rw [hdrop96]; exact List.take_of_length_le (by omega)
  have hflag : ¬ (64 ≤ (a ++ b ++ c ++ d).headD 0) := by
    rw [e1, headD_append_left _ _ _ hna, ha]
    exact Nat.not_le.mpr (pad32Bytes_headD (lt_trans h1 hpm))
  unfold g2Unmarshal
  rw [hlen]
  simp only [show ¬ (128 < 128) by omega, if_false, htake, hflag, htake1, htake2,
    htake3, htake4, ha, hb, hc, hd, pad32Bytes_val c0, pad32Bytes_val c1,
    pad32Bytes_val c2, pad32Bytes_val c3]
  by_cases hz : x0 = 0 ∧ x1 = 0 ∧ y0 = 0 ∧ y1 = 0
  · simp [hz.1, hz.2.1, hz.2.2.1, hz.2.2.2]
  · have hcv : isOnCurveG2 ⟨x0, x1⟩ ⟨y0, y1⟩ = true := by
      rcases hcurve with h | h
      · exact absurd h hz
      · exact h
    simp [hz, h0, h1, h2, h3, hcv]

/-! ## Parsing lemmas -/

theorem parseDigits_0x (rest : List Char) :
    parseDigits decDigit? 10 ('0' :: 'x' :: rest) = none := by
  have hx : decDigit? 'x' = none := by decide
  have h0 : decDigit? '0' = some 0 := by decide
  cases rest with
  | nil => decide
  | cons c rs => simp [parseDigits, hx, h0]

theorem hexPrefixed_dec_none {s : String} (h : isHexPrefixed s = true) :
    setStringDec s = none := by
  obtain ⟨l⟩ := s
  unfold isHexPrefixed at h
  unfold setStringDec setString
  dsimp only at h ⊢
  split at h
  next rest =>
    show Option.map Int.ofNat (parseDigits decDigit? 10 ('0' :: 'x' :: rest)) = none
    rw [parseDigits_0x]
    rfl
  next => simp at h

theorem dec_some_not_hex {s : String} {v : Int} (h : setStringDec s = some v) :
    isHexPrefixed s = false := by
  by_contra hc
  rw [hexPrefixed_dec_none (Bool.not_eq_false _ ▸ hc)] at h
  exact Option.noConfusion h

theorem canonNat_inv {s : String} {v : Nat} (h : canonNat? s = some v) :
    setStringDec s = some (Int.ofNat v) ∧ Nat.repr v = s := by
  unfold canonNat? at h
  split at h
  next x heq =>
    split at h
    next hrepr =>
      have hxv : x = v := by injection h
      subst hxv
      exact ⟨heq, hrepr⟩
    next => exact absurd h (by simp)
  next => exact absurd h (by simp)

theorem sentinel_eq {s : String} (h : s ≠ "1") : sentinel s = s := by
  simp [sentinel, h]

/-! ## Decoder success lemmas -/

theorem stringToG1_ok {sx sy : String} {x y : Nat} (rest : List String)
    (hrest : rest ≠ [])
    (hcx : canonNat? sx = some x) (hcy : canonNat? sy = some y)
    (hsx : sx ≠ "1") (hsy : sy ≠ "1")
    (hx : x < pMod) (hy : y < pMod)
    (hcurve : (x = 0 ∧ y = 0) ∨ isOnCurveG1 x y = true) :
    stringToG1 (sx :: sy :: rest) = (.ok ⟨x, y⟩, sx :: sy :: rest) := by
  obtain ⟨hpx, _⟩ := canonNat_inv hcx
  obtain ⟨hpy, _⟩ := canonNat_inv hcy
  have hpm : pMod < 2 ^ 256 := by norm_num [pMod]
  have hx256 : x < 2 ^ 256 := lt_trans hx hpm
  have hy256 : y < 2 ^ 256 := lt_trans hy hpm
  have hlen : ¬ ((sx :: sy :: rest).length ≤ 2) := by
    simp only [List.length_cons]
    have : rest.length ≠ 0 := by
      intro hc
      exact hrest (List.length_eq_zero.mp hc)
    omega
  have hhex : isHexPrefixed sx = false := dec_some_not_hex hpx
  unfold stringToG1
  rw [if_neg hlen]
  simp only [List.headD_cons, List.getD_cons_succ, List.getD_cons_zero, hhex,
    Bool.false_eq_true, if_false, sentinel_eq hsx, sentinel_eq hsy, List.set]
  rw [hpx, hpy]
  have hax : (Int.ofNat x).natAbs = x := rfl
  have hay : (Int.ofNat y).natAbs = y := rfl
  simp only [hax, hay]
  rw [padStep_eq hx256, padStep_eq hy256]
  simp only [GoResult.bind_ok]
  rw [g1Unmarshal_pad hx hy hcurve]

theorem stringToG1Res_ok {sx sy : String} {x y : Nat} (rest : List String)
    (hrest : rest ≠ [])
    (hcx : canonNat? sx = some x) (hcy : canonNat? sy = some y)
    (hsx : sx ≠ "1") (hsy : sy ≠ "1")
    (hx : x < pMod) (hy : y < pMod)
    (hcurve : (x = 0 ∧ y = 0) ∨ isOnCurveG1 x y = true) :
    stringToG1Res (sx :: sy :: rest) = .ok ⟨x, y⟩ := by
  unfold stringToG1Res
  rw [stringToG1_ok rest hrest hcx hcy hsx hsy hx hy hcurve]

theorem stringToG2_ok {sx0 sx1 sy0 sy1 : String} {x0 x1 y0 y1 : Nat}
    (rest : List (List String)) (hrest : rest ≠ [])
    (hc0 : canonNat? sx0 = some x0) (hc1 : canonNat? sx1 = some x1)
    (hc2 : canonNat? sy0 = some y0) (hc3 : canonNat? sy1 = some y1)
    (hs0 : sx0 ≠ "1") (hs1 : sx1 ≠ "1") (hs2 : sy0 ≠ "1") (hs3 : sy1 ≠ "1")
    (h0 : x0 < pMod) (h1 : x1 < pMod) (h2 : y0 < pMod) (h3 : y1 < pMod)
    (hcurve : (x0 = 0 ∧ x1 = 0 ∧ y0 = 0 ∧ y1 = 0) ∨
      isOnCurveG2 ⟨x0, x1⟩ ⟨y0, y1⟩ = true) :
    stringToG2 ([sx0, sx1] :: [sy0, sy1] :: rest) = .ok ⟨⟨x0, x1⟩, ⟨y0, y1⟩⟩ := by
  obtain ⟨hp0, _⟩ := canonNat_inv hc0
  obtain ⟨hp1, _⟩ := canonNat_inv hc1
  obtain ⟨hp2, _⟩ := canonNat_inv hc2
  obtain ⟨hp3, _⟩ := canonNat_inv hc3
  have hpm : pMod < 2 ^ 256 := by norm_num [pMod]
  have hlen : ¬ (([sx0, sx1] :: [sy0, sy1] :: rest).length ≤ 2) := by
    simp only [List.length_cons]
    have : rest.length ≠ 0 := by
      intro hc
      exact hrest (List.length_eq_zero.mp hc)
    omega
  have hhex : isHexPrefixed sx0 = false := dec_some_not_hex hp0
  have hb0 : stringToBytes sx0 = .ok (pad32Bytes x0) := by
    have ha : setStringDec (sentinel sx0) = some (Int.ofNat x0) := by
      rw [sentinel_eq hs0]; exact hp0
    have := stringToBytes_ok ha (by simpa using lt_trans h0 hpm)
    simpa using this
  have hb1 : stringToBytes sx1 = .ok (pad32Bytes x1) := by
    have ha : setStringDec (sentinel sx1) = some (Int.ofNat x1) := by
      rw [sentinel_eq hs1]; exact hp1
    have := stringToBytes_ok ha (by simpa using lt_trans h1 hpm)
    simpa using this
  have hb2 : stringToBytes sy0 = .ok (pad32Bytes y0) := by
    have ha : setStringDec (sentinel sy0) = some (Int.ofNat y0) := by
      rw [sentinel_eq hs2]; exact hp2
    have := stringToBytes_ok ha (by simpa using lt_trans h2 hpm)
    simpa using this
  have hb3 : stringToBytes sy1 = .ok (pad32Bytes y1) := by
    have ha : setStringDec (sentinel sy1) = some (Int.ofNat y1) := by
      rw [sentinel_eq hs3]; exact hp3
    have := stringToBytes_ok ha (by simpa using lt_trans h3 hpm)
    simpa using this
  unfold stringToG2
  rw [if_neg hlen]
  simp only [List.headD_cons, List.getD_cons_succ, List.getD_cons_zero]
  unfold g2DecimalBytes idx
  simp only [List.get?, GoResult.bind_ok, hhex, Bool.false_eq_true, if_false,
    hb0, hb1, hb2, hb3]
  exact g2Unmarshal_pad h0 h1 h2 h3 hcurve

/-! ## Signal-parsing lemmas -/

theorem stringToBigInt_dec {s : String} {v : Int} (h : setStringDec s = some v) :
    stringToBigInt s = .ok v := by
  unfold stringToBigInt
  split
  next rest heq =>
    exfalso
    have hhex : isHexPrefixed s = true := by
      unfold isHexPrefixed
      rw [heq]
      rfl
    rw [hexPrefixed_dec_none hhex] at h
    exact Option.noConfusion h
  next =>
    rw [h]

theorem frSetBigInt_ofNat (v : Nat) : frSetBigInt (Int.ofNat v) = v % rMod := rfl

theorem parsePublicInputsAux_ok : ∀ (i : Nat) (signals : List String),
    (∀ s ∈ signals, validSignal s = true) →
    parsePublicInputsAux i signals = .ok (signals.map sigVal)
  | _, [], _ => rfl
  | i, s :: rest, h => by
      have hs := h s (by simp)
      unfold validSignal at hs
      split at hs
      next v heq =>
        obtain ⟨hp, _⟩ := canonNat_inv heq
        have hlt : v < rMod := of_decide_eq_true hs
        unfold parsePublicInputsAux
        rw [stringToBigInt_dec hp,
          parsePublicInputsAux_ok (i + 1) rest (fun x hx => h x (by simp [hx]))]
        simp only [GoResult.bind_ok, List.map_cons]
        have hsv : sigVal s = v := by simp [sigVal, heq]
        rw [frSetBigInt_ofNat, Nat.mod_eq_of_lt hlt, hsv]
      next => exact absurd hs (by simp)

theorem ParsePublicInputs_ok {signals : List String}
    (h : ∀ s ∈ signals, validSignal s = true) :
    ParsePublicInputs signals = .ok (signals.map sigVal) :=
  parsePublicInputsAux_ok 0 signals h

theorem map_elementToString {signals : List String}
    (h : ∀ s ∈ signals, validSignal s = true) :
    (signals.map sigVal).map elementToString = signals := by
  induction signals with
  | nil => rfl
  | cons s rest ih =>
      have hs := h s (by simp)
      unfold validSignal at hs
      split at hs
      next v heq =>
        obtain ⟨_, hrepr⟩ := canonNat_inv heq
        simp only [List.map_cons, List.map_map]
        rw [← List.map_map]
        rw [ih (fun x hx => h x (by simp [hx]))]
        simp [elementToString, sigVal, heq, hrepr]
      next => exact absurd hs (by simp)

/-! ## Valid-encoding decode/encode lemmas -/

theorem validG1_decode {l : List String} (hv : validG1Enc l = true)
    (hs : g1NoSentinel l = true) :
    stringToG1 l = (.ok (g1EncVal l), l) ∧ g1ToCircomString (g1EncVal l) = l := by
  unfold validG1Enc at hv
  split at hv
  next sx sy s1 =>
    unfold g1NoSentinel at hs
    simp only [List.getD_cons_zero, List.getD_cons_succ, Bool.and_eq_true,
      bne_iff_ne, ne_eq] at hs
    obtain ⟨hsx, hsy⟩ := hs
    split at hv
    next x y heqx heqy =>
      simp only [Bool.and_eq_true, Bool.or_eq_true, beq_iff_eq,
        decide_eq_true_eq] at hv
      obtain ⟨⟨⟨h1, hxp⟩, hyp⟩, hcv⟩ := hv
      obtain ⟨_, hrx⟩ := canonNat_inv heqx
      obtain ⟨_, hry⟩ := canonNat_inv heqy
      have hval : g1EncVal [sx, sy, s1] = ⟨x, y⟩ := by
        simp [g1EncVal, heqx, heqy]
      have hcurve : (x = 0 ∧ y = 0) ∨ isOnCurveG1 x y = true := by
        rcases hcv with h | h
        · exact Or.inl ⟨h.1, h.2⟩
        · exact Or.inr h
      constructor
      · rw [hval]
        exact stringToG1_ok [s1] (by simp) heqx heqy hsx hsy hxp hyp hcurve
      · rw [hval]
        simp [g1ToCircomString, hrx, hry, h1]
    next => exact absurd hv (by simp)
  next => exact absurd hv (by simp)

theorem validG2_decode {l : List (List String)} (hv : validG2Enc l = true)
    (hs : g2NoSentinel l = true) :
    stringToG2 l = .ok (g2EncVal l) ∧ g2ToCircomString (g2EncVal l) = l := by
  unfold validG2Enc at hv
  split at hv
  next sx0 sx1 sy0 sy1 s1 s0 =>
    unfold g2NoSentinel at hs
    simp only [List.getD_cons_zero, List.getD_cons_succ, Bool.and_eq_true,
      bne_iff_ne, ne_eq] at hs
    obtain ⟨⟨⟨hs0, hs1⟩, hs2⟩, hs3⟩ := hs
    split at hv
    next x0 x1 y0 y1 heq0 heq1 heq2 heq3 =>
      simp only [Bool.and_eq_true, Bool.or_eq_true, beq_iff_eq,
        decide_eq_true_eq] at hv
      obtain ⟨⟨⟨⟨⟨⟨hb1, hb0⟩, hxp0⟩, hxp1⟩, hyp0⟩, hyp1⟩, hcv⟩ := hv
      obtain ⟨_, hr0⟩ := canonNat_inv heq0
      obtain ⟨_, hr1⟩ := canonNat_inv heq1
      obtain ⟨_, hr2⟩ := canonNat_inv heq2
      obtain ⟨_, hr3⟩ := canonNat_inv heq3
      have hval : g2EncVal [[sx0, sx1], [sy0, sy1], [s1, s0]] =
          ⟨⟨x0, x1⟩, ⟨y0, y1⟩⟩ := by
        simp [g2EncVal, heq0, heq1, heq2, heq3]
      have hcurve : (x0 = 0 ∧ x1 = 0 ∧ y0 = 0 ∧ y1 = 0) ∨
          isOnCurveG2 ⟨x0, x1⟩ ⟨y0, y1⟩ = true := by
        rcases hcv with h | h
        · exact Or.inl ⟨h.1.1.1, h.1.1.2, h.1.2, h.2⟩
        · exact Or.inr h
      constructor
      · rw [hval]
        exact stringToG2_ok [[s1, s0]] (by simp) heq0 heq1 heq2 heq3
          hs0 hs1 hs2 hs3 hxp0 hxp1 hyp0 hyp1 hcurve
      · rw [hval]
        simp [g2ToCircomString, hr0, hr1, hr2, hr3, hb1, hb0]
    next => exact absurd hv (by simp)
  next => exact absurd hv (by simp)

theorem convertICAux_ok : ∀ (i : Nat) (ics : List (List String)),
    (∀ l ∈ ics, validG1Enc l = true ∧ g1NoSentinel l = true) →
    convertICAux i ics = .ok (ics.map g1EncVal)
  | _, [], _ => rfl
  | i, l :: rest, h => by
      obtain ⟨hv, hs⟩ := h l (by simp)
      obtain ⟨hdec, _⟩ := validG1_decode hv hs
      unfold convertICAux
      have hres : stringToG1Res l = .ok (g1EncVal l) := by
        unfold stringToG1Res
        rw [hdec]
      rw [hres, convertICAux_ok (i + 1) rest (fun x hx => h x (by simp [hx]))]
      rfl

theorem map_g1ToCircomString {ics : List (List String)}
    (h : ∀ l ∈ ics, validG1Enc l = true ∧ g1NoSentinel l = true) :
    (ics.map g1EncVal).map g1ToCircomString = ics := by
  induction ics with
  | nil => rfl
  | cons l rest ih =>
      obtain ⟨hv, hs⟩ := h l (by simp)
      obtain ⟨_, henc⟩ := validG1_decode hv hs
      simp only [List.map_cons]
      rw [henc, ih (fun x hx => h x (by simp [hx]))]

/-- Round-trip assembly: for a valid, sentinel-free external triple whose
informational pairing field is consistent with the (parametric) pairing
collaborator, the external → internal conversion succeeds and the
internal → external conversion reproduces the triple field-by-field. -/
theorem roundtrip_of_valid (pair : G1Affine → G2Affine → GTEl)
    (vk : CircomVerificationKey) (proof : CircomProof) (signals : List String)
    (hval : validCircomTriple vk proof signals = true)
    (hsf : tripleNoSentinel vk proof = true)
    (hab : vk.vkAlphabeta12 =
      ComputeAlphabeta12 pair (g1EncVal vk.vkAlpha1) (g2EncVal vk.vkBeta2)) :
    ∃ g : GnarkProof, ConvertCircomToGnark vk proof signals = .ok g ∧
      ConvertGnarkToCircom pair g.proof g.verifyingKey g.publicInputs =
        (proof, vk, signals) := by
  obtain ⟨pA, pB, pC, pproto⟩ := proof
  obtain ⟨vproto, vcurve, vnpub, vAl, vBe, vGa, vDe, vIC, vAB⟩ := vk
  simp only [validCircomTriple, Bool.and_eq_true, beq_iff_eq,
    List.all_eq_true] at hval
  obtain ⟨⟨⟨⟨⟨⟨⟨⟨⟨⟨⟨⟨⟨hA, hB⟩, hC⟩, hP⟩, hVP⟩, hVC⟩, hAl⟩, hBe⟩, hGa⟩, hDe⟩,
    hIC⟩, hNP⟩, hICl⟩, hSig⟩ := hval
  simp only [tripleNoSentinel, Bool.and_eq_true, List.all_eq_true] at hsf
  obtain ⟨⟨⟨⟨⟨⟨⟨sfA, sfB⟩, sfC⟩, sfAl⟩, sfBe⟩, sfGa⟩, sfDe⟩, sfIC⟩ := hsf
  obtain ⟨hdecA, hencA⟩ := validG1_decode hA sfA
  obtain ⟨hdecB, hencB⟩ := validG2_decode hB sfB
  obtain ⟨hdecC, hencC⟩ := validG1_decode hC sfC
  obtain ⟨hdecAl, hencAl⟩ := validG1_decode hAl sfAl
  obtain ⟨hdecBe, hencBe⟩ := validG2_decode hBe sfBe
  obtain ⟨hdecGa, hencGa⟩ := validG2_decode hGa sfGa
  obtain ⟨hdecDe, hencDe⟩ := validG2_decode hDe sfDe
  have hResA : stringToG1Res pA = .ok (g1EncVal pA) := by
    unfold stringToG1Res; rw [hdecA]
  have hResC : stringToG1Res pC = .ok (g1EncVal pC) := by
    unfold stringToG1Res; rw [hdecC]
  have hResAl : stringToG1Res vAl = .ok (g1EncVal vAl) := by
    unfold stringToG1Res; rw [hdecAl]
  have hICdec : convertICAux 0 vIC = .ok (vIC.map g1EncVal) :=
    convertICAux_ok 0 vIC (fun l hl => ⟨hIC l hl, sfIC l hl⟩)
  have hSigdec : ConvertPublicInputs signals = .ok (signals.map sigVal) :=
    ParsePublicInputs_ok hSig
  have hProof : ConvertProof ⟨pA, pB, pC, pproto⟩ =
      .ok ⟨g1EncVal pA, g1EncVal pC, g2EncVal pB, [], ⟨0, 0⟩⟩ := by
    unfold ConvertProof
    rw [hResA, hResC, hdecB]
  have hVk : ConvertVerificationKey ⟨vproto, vcurve, vnpub, vAl, vBe, vGa, vDe,
      vIC, vAB⟩ =
      .ok ⟨g1EncVal vAl, vIC.map g1EncVal, g2EncVal vBe, g2EncVal vGa,
        g2EncVal vDe⟩ := by
    unfold ConvertVerificationKey
    rw [hResAl, hdecBe, hdecGa, hdecDe, hICdec]
    rfl
  refine ⟨⟨⟨g1EncVal pA, g1EncVal pC, g2EncVal pB, [], ⟨0, 0⟩⟩,
    ⟨g1EncVal vAl, vIC.map g1EncVal, g2EncVal vBe, g2EncVal vGa, g2EncVal vDe⟩,
    signals.map sigVal⟩, ?_, ?_⟩
  · unfold ConvertCircomToGnark
    rw [hProof, hVk, hSigdec]
    rfl
  · unfold ConvertGnarkToCircom
    dsimp only
    have hic0 : (vIC.map g1EncVal).map g1ToCircomString = vIC :=
      map_g1ToCircomString (fun l hl => ⟨hIC l hl, sfIC l hl⟩)
    rw [hic0, hencA, hencB, hencC, hencAl, hencBe, hencGa, hencDe,
      map_elementToString hSig]
    simp only [List.length_map]
    have htrunc : ¬ (signals.length = 0 ∧ vIC.length > 1) := by
      rintro ⟨hz, hgt⟩
      omega
    rw [if_neg htrunc]
    dsimp only at hab
    subst hP hVP hVC hNP hab
    rfl

/-! ## Claims -/

/-- C1 (counterexample): the round-trip fails as stated on a valid external
triple. The triple whose `pi_a` is the canonical encoding `["1", "2", "1"]`
of the G1 generator `(1, 2)` is structurally valid (canonical decimal
strings, point on the curve), yet the conversion to the internal
representation returns an error: the sentinel substitution turns the
X-coordinate `"1"` into `"0"` and the resulting `(0, 2)` fails on-curve
validation, so no equal output can be produced. -/
theorem c1_roundtrip_counterexample :
    validCircomTriple sampleVk genProofEnc sampleSignals = true ∧
    ConvertCircomToGnark sampleVk genProofEnc sampleSignals =
      .err "failed to convert PiA: invalid point: not canonical or not on curve" :=
  ⟨by decide, by decide⟩

/-- C1 (amended): for every valid external triple none of whose coordinate
strings equals the sentinel `"1"` and whose informational
`vk_alphabeta_12` field matches the pairing of the converted `alpha` and
`beta`, converting to the internal Gnark representation succeeds and
converting back yields the original triple field-by-field, as decimal
strings. -/
theorem c1_roundtrip_amended (pair : G1Affine → G2Affine → GTEl)
    (vk : CircomVerificationKey) (proof : CircomProof) (signals : List String)
    (hval : validCircomTriple vk proof signals = true)
    (hsf : tripleNoSentinel vk proof = true)
    (hab : vk.vkAlphabeta12 =
      ComputeAlphabeta12 pair (g1EncVal vk.vkAlpha1) (g2EncVal vk.vkBeta2)) :
    ∃ g : GnarkProof, ConvertCircomToGnark vk proof signals = .ok g ∧
      ConvertGnarkToCircom pair g.proof g.verifyingKey g.publicInputs =
        (proof, vk, signals) :=
  roundtrip_of_valid pair vk proof signals hval hsf hab

/-- C1 (witness): the amended round-trip at a concrete valid sentinel-free
triple. -/
theorem c1_roundtrip_amended_witness :
    ∃ g : GnarkProof,
      ConvertCircomToGnark sampleVk sampleProofEnc sampleSignals = .ok g ∧
      ConvertGnarkToCircom dummyPair g.proof g.verifyingKey g.publicInputs =
        (sampleProofEnc, sampleVk, sampleSignals) :=
  c1_roundtrip_amended dummyPair sampleVk sampleProofEnc sampleSignals
    (by decide) (by decide) rfl

/-- C2 (counterexample): the claimed decode order `(Y.A1, Y.A0, X.A1,
X.A0)` is not the source's. On the canonical encoding of the G2 generator
(rows `[X.A0, X.A1]`, `[Y.A0, Y.A1]` as the repository's own encoder emits
them) the source decoder succeeds, while a decoder assembling the bytes in
the spec's claimed order produces an off-curve point and errors, so the two
orders differ observably at this input. -/
theorem c2_g2_order_counterexample :
    stringToG2 g2GenEnc = .ok g2Gen ∧
    stringToG2SpecOrder g2GenEnc =
      .err "invalid point: not canonical or not on curve" ∧
    stringToG2SpecOrder g2GenEnc ≠ stringToG2 g2GenEnc :=
  ⟨by decide, by decide, by decide⟩

/-- C2 (amended): in the decimal branch the decoder concatenates the four
field elements in the fixed order `(X.A1, X.A0, Y.A1, Y.A0)` — that is,
`h[0][1], h[0][0], h[1][1], h[1][0]` with `h[0]` the X row and `h[1]` the
Y row — before unmarshalling the bytes into the native G2 point. -/
theorem c2_g2_order_amended (sx0 sx1 sy0 sy1 : String)
    (rest : List (List String)) (b1 b2 b3 b4 : List Nat)
    (hrest : rest ≠ []) (hhex : isHexPrefixed sx0 = false)
    (h1 : stringToBytes sx1 = .ok b1) (h2 : stringToBytes sx0 = .ok b2)
    (h3 : stringToBytes sy1 = .ok b3) (h4 : stringToBytes sy0 = .ok b4) :
    stringToG2 ([sx0, sx1] :: [sy0, sy1] :: rest) =
      g2Unmarshal (b1 ++ b2 ++ b3 ++ b4) := by
  have hlen : ¬ (([sx0, sx1] :: [sy0, sy1] :: rest).length ≤ 2) := by
    simp only [List.length_cons]
    have : rest.length ≠ 0 := by
      intro hc
      exact hrest (List.length_eq_zero.mp hc)
    omega
  unfold stringToG2
  rw [if_neg hlen]
  simp only [List.headD_cons, List.getD_cons_succ, List.getD_cons_zero]
  unfold g2DecimalBytes idx
  simp only [List.get?, GoResult.bind_ok, hhex, Bool.false_eq_true, if_false,
    h1, h2, h3, h4]

/-- C2 (witness): the amended order at the G2 generator's encoding. -/
theorem c2_g2_order_amended_witness :
    stringToG2
      [["10857046999023057135944570762232829481370756359578518086990519993285655852781",
        "11559732032986387107991004021392285783925812861821192530917403151452391805634"],
       ["8495653923123431417604973247489272438418190587263600148770280649306958101930",
        "4082367875863433681332203403145435568316851327593401208105741076214120093531"],
       ["1", "0"]] =
      g2Unmarshal
        (pad32Bytes 11559732032986387107991004021392285783925812861821192530917403151452391805634 ++
         pad32Bytes 10857046999023057135944570762232829481370756359578518086990519993285655852781 ++
         pad32Bytes 4082367875863433681332203403145435568316851327593401208105741076214120093531 ++
         pad32Bytes 8495653923123431417604973247489272438418190587263600148770280649306958101930) :=
  c2_g2_order_amended _ _ _ _ [["1", "0"]] _ _ _ _ (by decide) (by decide)
    (by decide) (by decide) (by decide) (by decide)

/-- C3 (code bug): the decoders panic at runtime instead of returning a
distinct error. A decimal G1 coordinate equal to `2^256` (33 bytes) makes
`addZPadding` slice a 32-byte array out of bounds, and a well-sized outer
G2 array whose first inner array is empty makes the hex test index
`h[0][0]` out of range. -/
theorem c3_decoder_panics :
    (stringToG1 ["115792089237316195423570985008687907853269984665640564039457584007913129639936",
      "2", "1"]).1 = .panic "runtime error: slice bounds out of range" ∧
    stringToG2 [[], ["1", "2"], ["1", "0"]] =
      .panic "runtime error: index out of range" :=
  ⟨by decide, by decide⟩

/-- C4: in the decimal branch the G1 decoder first replaces each coordinate
string equal to the sentinel `"1"` with `"0"`, left-pads each coordinate's
big-endian bytes with zeros to the 32-byte field width, and concatenates
the padded coordinates before unmarshalling; the same substitution and
padding are applied per sub-coordinate by `stringToBytes` in the G2
decimal branch. -/
theorem c4_decimal_padding (sx sy : String) (rest : List String) (v0 v1 : Int)
    (hrest : rest ≠ []) (hhex : isHexPrefixed sx = false)
    (hp0 : setStringDec (sentinel sx) = some v0)
    (hp1 : setStringDec (sentinel sy) = some v1)
    (hb0 : v0.natAbs < 2 ^ 256) (hb1 : v1.natAbs < 2 ^ 256) :
    stringToG1 (sx :: sy :: rest) =
      (g1Unmarshal (pad32Bytes v0.natAbs ++ pad32Bytes v1.natAbs),
       sentinel sx :: sentinel sy :: rest) ∧
    (∀ (s : String) (v : Int), setStringDec (sentinel s) = some v →
      v.natAbs < 2 ^ 256 → stringToBytes s = .ok (pad32Bytes v.natAbs)) := by
  constructor
  · have hlen : ¬ ((sx :: sy :: rest).length ≤ 2) := by
      simp only [List.length_cons]
      have : rest.length ≠ 0 := by
        intro hc
        exact hrest (List.length_eq_zero.mp hc)
      omega
    unfold stringToG1
    rw [if_neg hlen]
    simp only [List.headD_cons, List.getD_cons_succ, List.getD_cons_zero, hhex,
      Bool.false_eq_true, if_false, List.set]
    rw [hp0, hp1]
    dsimp only
    rw [padStep_eq hb0, padStep_eq hb1]
    simp only [GoResult.bind_ok]
  · intro s v hp hlt
    exact stringToBytes_ok hp hlt

/-- C4 (witness): the sentinel-and-padding behaviour at the concrete input
`["1", "2", "1"]`. -/
theorem c4_decimal_padding_witness :
    stringToG1 ["1", "2", "1"] =
      (g1Unmarshal (pad32Bytes 0 ++ pad32Bytes 2), ["0", "2", "1"]) ∧
    stringToBytes "1" = .ok (pad32Bytes 0) :=
  have h := c4_decimal_padding "1" "2" ["1"] 0 2 (by decide) (by decide)
    (by decide) (by decide) (by decide) (by decide)
  ⟨h.1, h.2 "1" 0 (by decide) (by decide)⟩

/-- C5 (counterexample): a two-element decimal string array encoding an
on-curve point (here `2·G`) is rejected: the decoder's length guard
`len(h) <= 2` demands at least three elements, so exactly two coordinate
strings always yield the "not enough data" error. -/
theorem c5_two_element_counterexample :
    isOnCurveG1 g1TwoG.x g1TwoG.y = true ∧
    (stringToG1
      ["1368015179489954701390400359078579693043519447331113978918064868415326638035",
       "9918110051302171585080402603319702774565515993150576347155970296011118125764"]).1 =
      .err "not enough data for stringToG1" :=
  ⟨by decide, by decide⟩

/-- C5 (amended): the G1 decoder accepts decimal input arrays of length at
least three (such as the external `[X, Y, "1"]` form), decoding the first
two coordinate strings into the point; an array of exactly two strings is
rejected with an error. -/
theorem c5_g1_length_amended :
    (∀ (sx sy : String) (rest : List String) (x y : Nat), rest ≠ [] →
      canonNat? sx = some x → canonNat? sy = some y → sx ≠ "1" → sy ≠ "1" →
      x < pMod → y < pMod → ((x = 0 ∧ y = 0) ∨ isOnCurveG1 x y = true) →
      stringToG1Res (sx :: sy :: rest) = .ok ⟨x, y⟩) ∧
    (∀ a b : String, stringToG1Res [a, b] =
      .err "not enough data for stringToG1") := by
  constructor
  · intro sx sy rest x y hrest hcx hcy hsx hsy hx hy hcurve
    exact stringToG1Res_ok rest hrest hcx hcy hsx hsy hx hy hcurve
  · intro a b
    rfl

/-- C5 (witness): decoding `2·G` from a three-element array succeeds, while
a two-element array errors. -/
theorem c5_g1_length_amended_witness :
    stringToG1Res
      ["1368015179489954701390400359078579693043519447331113978918064868415326638035",
       "9918110051302171585080402603319702774565515993150576347155970296011118125764",
       "1"] = .ok g1TwoG ∧
    stringToG1Res ["3", "4"] = .err "not enough data for stringToG1" :=
  have h := c5_g1_length_amended
  ⟨h.1 _ _ ["1"] g1TwoG.x g1TwoG.y (by decide) (by decide) (by decide)
    (by decide) (by decide) (by decide) (by decide) (by decide),
   h.2 "3" "4"⟩

/-- C6: when the public witness is empty and the converted IC array has
more than one entry, `ConvertGnarkToCircom` truncates the emitted IC array
to length exactly 1; for a nonzero public-input count the emitted IC array
has one entry per element of the verifying key's `G1.K` and `nPublic` is
the public-witness length. -/
theorem c6_ic_truncation (pair : G1Affine → G2Affine → GTEl)
    (proof : Groth16Proof) (vk : Groth16VerifyingKey) (wit : List Nat) :
    (wit.length = 0 → vk.g1K.length > 1 →
      ((ConvertGnarkToCircom pair proof vk wit).2.1).ic.length = 1) ∧
    (wit.length ≠ 0 →
      ((ConvertGnarkToCircom pair proof vk wit).2.1).ic =
        vk.g1K.map g1ToCircomString ∧
      ((ConvertGnarkToCircom pair proof vk wit).2.1).nPublic = wit.length) := by
  unfold ConvertGnarkToCircom
  dsimp only
  constructor
  · intro hz hgt
    have hcond : wit.length = 0 ∧ (vk.g1K.map g1ToCircomString).length > 1 :=
      ⟨hz, by simpa using hgt⟩
    rw [if_pos hcond]
    simp only [List.length_take, List.length_map]
    omega
  · intro hnz
    have hcond : ¬ (wit.length = 0 ∧
        (vk.g1K.map g1ToCircomString).length > 1) := by
      rintro ⟨hz, _⟩
      exact hnz hz
    rw [if_neg hcond]
    exact ⟨rfl, rfl⟩

/-- C6 (witness): a two-entry `G1.K` with an empty witness emits one IC
entry; with one public input, `nPublic` is 1. -/
theorem c6_ic_truncation_witness :
    ((ConvertGnarkToCircom dummyPair sampleProofNoCommit sampleGnarkVk
      []).2.1).ic.length = 1 ∧
    ((ConvertGnarkToCircom dummyPair sampleProofNoCommit sampleGnarkVk
      [5]).2.1).nPublic = 1 :=
  ⟨(c6_ic_truncation dummyPair sampleProofNoCommit sampleGnarkVk []).1
      rfl (by decide),
   ((c6_ic_truncation dummyPair sampleProofNoCommit sampleGnarkVk [5]).2
      (by decide)).2⟩

/-- C7 (counterexample): the absence of commitment points is not treated as
a valid shape by the Solidity-facing conversion: `FromGnarkProof` reads
`Commitments[0]` unconditionally, so a proof with no commitments makes the
conversion panic instead of succeeding or returning an error. -/
theorem c7_commitments_counterexample :
    fromGnarkProof sampleProofNoCommit =
      .panic "runtime error: index out of range" := by decide

/-- C7 (amended): the conversion maps all three group elements; the first
commitment point and the commitment proof of knowledge are carried over
exactly when commitments are present, while a commitment-free proof makes
the conversion panic (the Circom-facing external proof format carries no
commitment fields at all). -/
theorem c7_commitments_mapping (proof : Groth16Proof) :
    (∀ (c0 : G1Affine) (cs : List G1Affine), proof.commitments = c0 :: cs →
      fromGnarkProof proof = .ok
        ⟨⟨(proof.ar.x, proof.ar.y),
          ((proof.bs.x.a1, proof.bs.x.a0), (proof.bs.y.a1, proof.bs.y.a0)),
          (proof.krs.x, proof.krs.y)⟩,
         (c0.x, c0.y), (proof.commitmentPok.x, proof.commitmentPok.y)⟩) ∧
    (proof.commitments = [] → (fromGnarkProof proof).isPanic = true) := by
  constructor
  · intro c0 cs hc
    unfold fromGnarkProof
    rw [hc]
    rfl
  · intro hc
    unfold fromGnarkProof
    rw [hc]
    rfl

/-- C7 (witness): the mapping at a concrete proof carrying one commitment
point. -/
theorem c7_commitments_mapping_witness :
    fromGnarkProof sampleProofWithCommit = .ok
      ⟨⟨(sampleProofWithCommit.ar.x, sampleProofWithCommit.ar.y),
        ((sampleProofWithCommit.bs.x.a1, sampleProofWithCommit.bs.x.a0),
         (sampleProofWithCommit.bs.y.a1, sampleProofWithCommit.bs.y.a0)),
        (sampleProofWithCommit.krs.x, sampleProofWithCommit.krs.y)⟩,
       ((1 : Nat), (2 : Nat)),
       (sampleProofWithCommit.commitmentPok.x,
        sampleProofWithCommit.commitmentPok.y)⟩ :=
  (c7_commitments_mapping sampleProofWithCommit).1 ⟨1, 2⟩ [] rfl

/-- C8: loading cached artifacts yields the distinguished
`ErrCircuitDoesNotExist` exactly when the constraint-system file is absent,
the aggregation stage recompiles exactly on that error, and every other
load failure aborts the stage. -/
theorem c8_load_recompile (fs : String → FileState) :
    (LoadCircuit fs .aggregateProof = .error .circuitDoesNotExist ↔
      fs "circuit_aggregate.r1cs" = .absent) ∧
    (aggregateCompileOrLoad fs = .recompile ↔
      fs "circuit_aggregate.r1cs" = .absent) ∧
    (∀ e, LoadCircuit fs .aggregateProof = .error (.other e) →
      aggregateCompileOrLoad fs = .abort ("failed to load circuit: " ++ e)) := by
  have e1 : "circuit_" ++ fileSuffix CircuitType.aggregateProof ++ ".r1cs" =
      "circuit_aggregate.r1cs" := rfl
  have e2 : "pk_" ++ fileSuffix CircuitType.aggregateProof ++ ".bin" =
      "pk_aggregate.bin" := rfl
  have e3 : "vk_" ++ fileSuffix CircuitType.aggregateProof ++ ".bin" =
      "vk_aggregate.bin" := rfl
  unfold aggregateCompileOrLoad LoadCircuit
  dsimp only
  rw [e1, e2, e3]
  cases h1 : fs "circuit_aggregate.r1cs" <;>
    cases h2 : fs "pk_aggregate.bin" <;>
      cases h3 : fs "vk_aggregate.bin" <;>
        simp_all [readArtifact]

/-- C8 (witness): a missing constraint-system file triggers recompilation,
while a corrupt proving-key file aborts. -/
theorem c8_load_recompile_witness :
    aggregateCompileOrLoad fsNoAggregateCs = .recompile ∧
    aggregateCompileOrLoad fsCorruptAggregatePk =
      .abort "failed to load circuit: error reading proving key from pk.bin" :=
  ⟨(c8_load_recompile fsNoAggregateCs).2.1.mpr (by decide),
   (c8_load_recompile fsCorruptAggregatePk).2.2
     "error reading proving key from pk.bin" rfl⟩

/-- C9: in the decimal branch `stringToG1` writes the sentinel
substitution through to the caller's slice: after the call the caller's
array holds `sentinel h[0]` and `sentinel h[1]`, so whenever either of the
first two coordinate strings equals `"1"` the caller's array is changed. -/
theorem c9_g1_inplace_mutation (s0 s1 : String) (rest : List String)
    (hrest : rest ≠ []) (hhex : isHexPrefixed s0 = false) :
    (stringToG1 (s0 :: s1 :: rest)).2 = sentinel s0 :: sentinel s1 :: rest ∧
    (s0 = "1" ∨ s1 = "1" →
      (stringToG1 (s0 :: s1 :: rest)).2 ≠ s0 :: s1 :: rest) := by
  have hlen : ¬ ((s0 :: s1 :: rest).length ≤ 2) := by
    simp only [List.length_cons]
    have : rest.length ≠ 0 := by
      intro hc
      exact hrest (List.length_eq_zero.mp hc)
    omega
  have hstate : (stringToG1 (s0 :: s1 :: rest)).2 =
      sentinel s0 :: sentinel s1 :: rest := by
    unfold stringToG1
    rw [if_neg hlen]
    simp only [List.headD_cons, List.getD_cons_succ, List.getD_cons_zero, hhex,
      Bool.false_eq_true, if_false, List.set]
    split
    next => rfl
    next =>
      split
      next => rfl
      next =>
        split <;> rfl
  refine ⟨hstate, ?_⟩
  intro hone hcontra
  rw [hstate] at hcontra
  injection hcontra with hh ht
  injection ht with hh2 _
  rcases hone with h | h
  · rw [h] at hh
    exact absurd hh (by decide)
  · rw [h] at hh2
    exact absurd hh2 (by decide)

/-- C9 (witness): the caller's array after decoding `["1", "2", "1"]` is
`["0", "2", "1"]`, differing from the input. -/
theorem c9_g1_inplace_mutation_witness :
    (stringToG1 ["1", "2", "1"]).2 = ["0", "2", "1"] ∧
    (stringToG1 ["1", "2", "1"]).2 ≠ ["1", "2", "1"] :=
  have h := c9_g1_inplace_mutation "1" "2" ["1"] (by decide) (by decide)
  ⟨h.1, h.2 (Or.inl rfl)⟩

/-- C10: the public-signal parser accepts any syntactically valid decimal
or hex string regardless of magnitude and reduces it modulo the scalar
field `r`; a value at or above `r` is accepted and reduced (never an
error), so parsing is not injective (`r + 5` and `5` collide) and
re-emitting such a signal does not reproduce the original string. -/
theorem c10_signal_mod_reduction :
    (∀ (s : String) (v : Nat), stringToBigInt s = .ok (Int.ofNat v) →
      rMod ≤ v →
      ParsePublicInputs [s] = .ok [v % rMod] ∧ v % rMod ≠ v) ∧
    ParsePublicInputs
      ["21888242871839275222246405745257275088548364400416034343698204186575808495622"] =
      .ok [5] ∧
    ParsePublicInputs ["5"] = .ok [5] ∧
    elementToString 5 ≠
      "21888242871839275222246405745257275088548364400416034343698204186575808495622" := by
  refine ⟨?_, by decide, by decide, by decide⟩
  intro s v hparse hge
  constructor
  · unfold ParsePublicInputs parsePublicInputsAux
    rw [hparse]
    dsimp only
    have haux : parsePublicInputsAux 1 [] = .ok [] := rfl
    rw [haux]
    simp only [GoResult.bind_ok, frSetBigInt_ofNat]
  · have hlt : v % rMod < rMod := Nat.mod_lt _ (by norm_num [rMod])
    omega

/-- C10 (witness): the value `r + 10` parses successfully and is reduced
to `10 ≠ r + 10`. -/
theorem c10_signal_mod_reduction_witness :
    ParsePublicInputs
      ["21888242871839275222246405745257275088548364400416034343698204186575808495627"] =
      .ok [21888242871839275222246405745257275088548364400416034343698204186575808495627
        % rMod] ∧
    21888242871839275222246405745257275088548364400416034343698204186575808495627
      % rMod ≠
      21888242871839275222246405745257275088548364400416034343698204186575808495627 :=
  c10_signal_mod_reduction.1
    "21888242871839275222246405745257275088548364400416034343698204186575808495627"
    21888242871839275222246405745257275088548364400416034343698204186575808495627
    (by decide) (by decide)

end Circom2Gnark
